import Mathlib

/-!
Shallow embedding of `pxr/usdQt/common.py`: Qt menu-building helpers, a
singleton menu separator, a pluggable hook registry with fallback dispatch,
and small color utilities.  Python mutable state is threaded explicitly;
Python exceptions surface as `Except PyError` (or `Option` where only one
failure mode exists); a registered hook raising `FallbackException` is
modelled by the hook returning `none`.
-/

namespace UsdQtCommon

/-- Python exceptions that the code under study raises or catches. -/
inductive PyError
  | keyError (key : String)
  | valueError (msg : String)
deriving DecidableEq, Repr

/-! ## UsdQtUtilities: a registry of fallback-capable callables

`UsdQtUtilities._registered` is a dict mapping a hook name to a list of
functions; `register` does `setdefault(name, []).insert(0, func)` and
`exec_` walks the list, returning the first result whose function does not
raise `FallbackException`.  A hook function is modelled as `α → Option β`
where `none` stands for raising `FallbackException`. -/

/-- A registered hook function; `none` models raising `FallbackException`. -/
abbrev HookFunc (α β : Type) := α → Option β

/-- The `UsdQtUtilities._registered` class attribute, as an association list. -/
abbrev HookRegistry (α β : Type) := List (String × List (HookFunc α β))

namespace UsdQtUtilities

/-- Python `UsdQtUtilities.register(name, func)`:
`cls._registered.setdefault(name, []).insert(0, func)` — prepend `func` to
the list stored under `name`, creating the entry if absent. -/
def register (reg : HookRegistry α β) (name : String) (f : HookFunc α β) :
    HookRegistry α β :=
  match reg with
  | [] => [(name, [f])]
  | (n, fs) :: rest =>
    if n = name then (n, f :: fs) :: rest
    else (n, fs) :: register rest name f

/-- The body of the loop in `UsdQtUtilities.exec_`: try each function in
order, return the first result not raising `FallbackException`; fall off the
end (returning Python `None`, here `none`) when every function raises it. -/
def firstNonFallback (fs : List (HookFunc α β)) (a : α) : Option β :=
  match fs with
  | [] => none
  | f :: rest =>
    match f a with
    | some v => some v
    | none => firstNonFallback rest a

/-- Python `UsdQtUtilities.exec_(name, *args)`: `cls._registered[name]`
raises `KeyError` when `name` was never registered; otherwise run the
loop. -/
def exec_ (reg : HookRegistry α β) (name : String) (a : α) :
    Except PyError (Option β) :=
  match reg.lookup name with
  | none => .error (.keyError name)
  | some fs => .ok (firstNonFallback fs a)

/-- Perform a sequence of `register` calls, left to right. -/
def registerMany (reg : HookRegistry α β) :
    List (String × HookFunc α β) → HookRegistry α β
  | [] => reg
  | (n, f) :: rest => registerMany (register reg n f) rest

end UsdQtUtilities

/-! ## BlendColors

`QColor` channels are modelled as exact rationals; `getRgb()` returns the
four RGBA channels and `BlendColors` rebuilds a color from the blended
channel list, exactly as the Python list comprehension does. -/

/-- A `QtGui.QColor`, reduced to its four RGBA channels. -/
structure QColorQ where
  r : ℚ
  g : ℚ
  b : ℚ
  a : ℚ
deriving DecidableEq, Repr

/-- Python `QColor.getRgb()`: the channels as a 4-element tuple. -/
def QColorQ.getRgb (c : QColorQ) : List ℚ := [c.r, c.g, c.b, c.a]

/-- Rebuild a `QColor` from a channel list (`QtGui.QColor(*channels)`);
channels beyond the provided list default to the constructor defaults,
which the blending code never exercises. -/
def QColorQ.ofChannels : List ℚ → QColorQ
  | [r, g, b, a] => ⟨r, g, b, a⟩
  | _ => ⟨0, 0, 0, 0⟩

/-- Python `BlendColors(color1, color2, mix=.5)`. -/
def BlendColors (color1 color2 : QColorQ) (mix : ℚ := 1/2) : QColorQ :=
  QColorQ.ofChannels
    (((color1.getRgb).zip (color2.getRgb)).map
      (fun p => p.1 * mix + p.2 * (1 - mix)))

/-! ## Qt menu model

Menus and actions are Qt objects mutated in place; here a `QMenu` is its
title plus its actions in insertion order, and each method that mutates a
menu returns the updated value. -/

/-- The display properties of a `QtWidgets.QAction`. -/
structure QActionProps where
  text : String
  enabled : Bool
  separator : Bool
deriving DecidableEq, Repr

/-- Python class `MenuAction`: `enable` and `label` are the overridable
predicate and label methods (`enable` defaults to returning `True`; `label`
must come from a subclass since the base raises `NotImplementedError`);
`buildOverride` and `updateOverride` model a subclass overriding `Build` or
`Update`, `none` meaning the base-class implementation runs. -/
structure MenuAction (Ctx : Type) where
  enable : Ctx → Bool := fun _ => true
  label : Ctx → String
  buildOverride : Option (Ctx → Option QActionProps) := none
  updateOverride : Option (QActionProps → Ctx → QActionProps) := none

/-- Python `MenuAction.Build(context)`: the default implementation creates a
`QAction` labelled `self.label(context)` whose enabled state is
`self.enable(context)`; an override may also return `None` to add
nothing. -/
def MenuAction.Build (ma : MenuAction Ctx) (ctx : Ctx) : Option QActionProps :=
  match ma.buildOverride with
  | some f => f ctx
  | none => some ⟨ma.label ctx, ma.enable ctx, false⟩

/-- Python `MenuAction.Update(action, context)`: the default implementation
sets the action's enabled state from `self.enable(context)`. -/
def MenuAction.Update (ma : MenuAction Ctx) (a : QActionProps) (ctx : Ctx) :
    QActionProps :=
  match ma.updateOverride with
  | some f => f a ctx
  | none => { a with enabled := ma.enable ctx }

/-- The custom data `setData` attaches to a menu item: the `MenuAction`
that built it, or the `MenuSeparator` singleton. -/
inductive QData (Ctx : Type)
  | menuAction (ma : MenuAction Ctx)
  | separator

/-- A `QtWidgets.QAction` as it sits inside a menu. -/
structure QAction (Ctx : Type) where
  props : QActionProps
  data : Option (QData Ctx)

/-- A `QtWidgets.QMenu`: its title and its actions, in insertion order. -/
structure QMenu (Ctx : Type) where
  title : String
  items : List (QAction Ctx)

/-- Qt `QMenu.isEmpty()`: true when the menu has no visible non-separator
action — separators are skipped.  Visibility is elided because this module
never hides an action, so every item is visible. -/
def QMenu.isEmpty (menu : QMenu Ctx) : Bool :=
  menu.items.all (fun a => a.props.separator)

/-- An element of a `MenuBuilder.actions` list: a `MenuAction` instance or
the `MenuSeparator` singleton. -/
inductive MenuEntry (Ctx : Type)
  | action (ma : MenuAction Ctx)
  | separator

/-- Python `_MenuSeparator.AddToMenu(menu, context)`: `menu.addSeparator()`
followed by `a.setData(self)`. -/
def sepAddToMenu (menu : QMenu Ctx) : QMenu Ctx :=
  { menu with items := menu.items ++ [⟨⟨"", true, true⟩, some .separator⟩] }

/-- Python `MenuAction.AddToMenu(menu, context)`: call `self.Build(context)`
and, when the result is not `None`, attach this instance as data and append
the action to the menu. -/
def MenuAction.AddToMenu (ma : MenuAction Ctx) (menu : QMenu Ctx)
    (ctx : Ctx) : QMenu Ctx :=
  match ma.Build ctx with
  | none => menu
  | some props =>
    { menu with items := menu.items ++ [⟨props, some (.menuAction ma)⟩] }

/-- Dispatch `action.AddToMenu(menu, context)` over the two kinds of
entry. -/
def MenuEntry.AddToMenu (e : MenuEntry Ctx) (menu : QMenu Ctx) (ctx : Ctx) :
    QMenu Ctx :=
  match e with
  | .action ma => ma.AddToMenu menu ctx
  | .separator => sepAddToMenu menu

/-- The items a single entry contributes when added to a menu being
built. -/
def MenuEntry.itemsFor (e : MenuEntry Ctx) (ctx : Ctx) : List (QAction Ctx) :=
  match e with
  | .action ma =>
    match ma.Build ctx with
    | none => []
    | some props => [⟨props, some (.menuAction ma)⟩]
  | .separator => [⟨⟨"", true, true⟩, some .separator⟩]

/-- Python class `MenuBuilder`: a named, ordered collection of menu
entries. -/
structure MenuBuilder (Ctx : Type) where
  name : String
  actions : List (MenuEntry Ctx)

/-- Python `str.strip()` with no argument: remove leading and trailing
whitespace characters. -/
def pyStrip (s : String) : String :=
  ⟨((s.data.dropWhile Char.isWhitespace).reverse.dropWhile
      Char.isWhitespace).reverse⟩

/-- Python `MenuBuilder.__init__(name, actions)`: strips the name and
asserts the stripped name is truthy, i.e. non-empty; `none` models the
failing `assert`. -/
def MenuBuilder.init (name : String) (actions : List (MenuEntry Ctx)) :
    Option (MenuBuilder Ctx) :=
  let stripped := pyStrip name
  if stripped = "" then none
  else some ⟨stripped, actions⟩

/-- The loop of `MenuBuilder.Build`: a fresh `QMenu(self.name)` with every
entry of `self.actions` added in list order. -/
def MenuBuilder.rawBuild (mb : MenuBuilder Ctx) (ctx : Ctx) : QMenu Ctx :=
  mb.actions.foldl (fun menu e => e.AddToMenu menu ctx) ⟨mb.name, []⟩

/-- Python `MenuBuilder.Build(context)`: returns the built menu, or `None`
when `menu.isEmpty()` holds — which, per Qt, ignores separators. -/
def MenuBuilder.Build (mb : MenuBuilder Ctx) (ctx : Ctx) :
    Option (QMenu Ctx) :=
  let menu := mb.rawBuild ctx
  if menu.isEmpty then none else some menu

/-- Python class `MenuBarBuilder`, as its state: the `_menus` and
`_menuBuilders` dicts and the menus added to the `QMenuBar`, in order.  The
`contextProvider` is modelled by passing the context that
`GetMenuContext()` returns into each operation that calls it. -/
structure MenuBarBuilder (Ctx : Type) where
  menus : List (String × QMenu Ctx)
  menuBuilders : List (String × MenuBuilder Ctx)
  menuBar : List (QMenu Ctx)

/-- Python `MenuBarBuilder.AddMenu(menuBuilder)`: raise `ValueError` when
the name is already registered; otherwise build with a fresh context and,
when the built menu is non-`None`, record it everywhere and return `True`.
The pre-state is returned alongside the outcome so that state preservation
on failure is expressible. -/
def MenuBarBuilder.AddMenu (b : MenuBarBuilder Ctx) (ctx : Ctx)
    (mb : MenuBuilder Ctx) : MenuBarBuilder Ctx × Except PyError Bool :=
  let name := mb.name
  if (b.menus.lookup name).isSome then
    (b, .error (.valueError ("A menu named " ++ name ++ " already exists")))
  else
    match mb.Build ctx with
    | some menu =>
      ({ menus := b.menus ++ [(name, menu)],
         menuBuilders := b.menuBuilders ++ [(name, mb)],
         menuBar := b.menuBar ++ [menu] }, .ok true)
    | none => (b, .ok false)

/-- The body of the `_menuAboutToShow` loop for one action: when the
attached data is a `MenuAction` instance, call its `Update`. -/
def updateQAction (ctx : Ctx) (a : QAction Ctx) : QAction Ctx :=
  match a.data with
  | some (.menuAction ma) => { a with props := ma.Update a.props ctx }
  | _ => a

/-- Python `MenuBarBuilder._menuAboutToShow(menuName)`: look the menu up in
`_menus` (`KeyError` when absent), obtain one context from
`contextProvider.GetMenuContext()` and update every action of the menu
whose data is a `MenuAction`; the result is the menu as mutated in
place. -/
def MenuBarBuilder.menuAboutToShow (b : MenuBarBuilder Ctx) (ctx : Ctx)
    (menuName : String) : Except PyError (QMenu Ctx) :=
  match b.menus.lookup menuName with
  | none => .error (.keyError menuName)
  | some menu =>
    .ok { menu with items := menu.items.map (updateQAction ctx) }

/-- Python `MenuBarBuilder.GetMenu(name)`. -/
def MenuBarBuilder.GetMenu (b : MenuBarBuilder Ctx) (name : String) :
    Option (QMenu Ctx) :=
  b.menus.lookup name

/-- Python `MenuBarBuilder.GetMenuBuilder(name)`. -/
def MenuBarBuilder.GetMenuBuilder (b : MenuBarBuilder Ctx) (name : String) :
    Option (MenuBuilder Ctx) :=
  b.menuBuilders.lookup name

/-! ## The `_MenuSeparator` singleton

Python `_MenuSeparator.__new__` stores the one created instance in the
class attribute `_instance`; `__call__` returns `self`.  Objects are
modelled by allocation ids, and `__new__` by a transition on the class
attribute that consumes a fresh id only when no instance exists yet. -/

/-- The `_MenuSeparator._instance` class attribute. -/
structure SepClassState where
  inst : Option Nat
deriving DecidableEq, Repr

/-- Python `_MenuSeparator()` — `__new__`: allocate `fresh` only when
`_instance` is `None`, otherwise return the stored instance. -/
def sepNew (c : SepClassState) (fresh : Nat) : SepClassState × Nat :=
  match c.inst with
  | none => (⟨some fresh⟩, fresh)
  | some i => (c, i)

/-- Python `MenuSeparator(*args)` — `__call__` returns `self`. -/
def sepCall (self : Nat) : Nat := self

/-- Run a sequence of constructions, recording each returned object. -/
def sepNews (c : SepClassState) : List Nat → SepClassState × List Nat
  | [] => (c, [])
  | f :: fs =>
    let p := sepNew c f
    let q := sepNews p.1 fs
    (q.1, p.2 :: q.2)

/-! ## GetId -/

/-- A Python value passed to `GetId`: an `Sdf.Layer` carrying its
`identifier`, a plain string, or any other object. -/
inductive PyVal (α : Type)
  | sdfLayer (identifier : String)
  | pyStr (s : String)
  | other (x : α)
deriving DecidableEq, Repr

/-- Python `isinstance(layer, Sdf.Layer)`. -/
def PyVal.isSdfLayer : PyVal α → Bool
  | .sdfLayer _ => true
  | _ => false

/-- Python `GetId(layer)`: the layer's `identifier` for an `Sdf.Layer`
instance, the input itself otherwise. -/
def GetId (layer : PyVal α) : PyVal α :=
  match layer with
  | .sdfLayer ident => .pyStr ident
  | v => v

/-! ## Concrete fixtures for closed evaluations -/

/-- A concrete context-free menu action used for concrete evaluation. -/
def copyAction : MenuAction Unit := ⟨fun _ => true, fun _ => "Copy", none, none⟩

/-- A concrete two-entry menu builder used for concrete evaluation. -/
def demoBuilder : MenuBuilder Unit := ⟨"Edit", [.action copyAction, .separator]⟩

/-- The menu that `demoBuilder` builds. -/
def demoMenu : QMenu Unit :=
  ⟨"Edit", [⟨⟨"Copy", true, false⟩, some (.menuAction copyAction)⟩,
            ⟨⟨"", true, true⟩, some .separator⟩]⟩

/-- A menu action whose overridden `Build` returns `None`. -/
def hiddenAction : MenuAction Unit :=
  ⟨fun _ => true, fun _ => "Hidden", some (fun _ => none), none⟩

/-- A builder whose only action contributes nothing. -/
def hiddenBuilder : MenuBuilder Unit := ⟨"View", [.action hiddenAction]⟩

/-- A concrete always-enabled Open action. -/
def openAction : MenuAction Unit := ⟨fun _ => true, fun _ => "Open", none, none⟩

/-- A builder producing a one-item File menu. -/
def fileBuilder : MenuBuilder Unit := ⟨"File", [.action openAction]⟩

/-- The menu that `fileBuilder` builds. -/
def fileMenu : QMenu Unit :=
  ⟨"File", [⟨⟨"Open", true, false⟩, some (.menuAction openAction)⟩]⟩

/-- A builder whose only entry is the menu separator. -/
def sepOnlyBuilder : MenuBuilder Unit := ⟨"Sep", [.separator]⟩

/-- A menu bar with no registered menus. -/
def emptyBar : MenuBarBuilder Unit := ⟨[], [], []⟩

/-- A menu bar that already registered the name File. -/
def barWithFile : MenuBarBuilder Unit :=
  ⟨[("File", fileMenu)], [("File", fileBuilder)], [fileMenu]⟩

/-- A menu action whose enable predicate is always true. -/
def pasteAction : MenuAction Unit :=
  ⟨fun _ => true, fun _ => "Paste", none, none⟩

/-- A registered menu holding a stale, disabled Paste action. -/
def staleMenu : QMenu Unit :=
  ⟨"Tools", [⟨⟨"Paste", false, false⟩, some (.menuAction pasteAction)⟩]⟩

/-- A menu bar with the stale menu registered under the name Tools. -/
def barWithStale : MenuBarBuilder Unit :=
  ⟨[("Tools", staleMenu)], [], [staleMenu]⟩

end UsdQtCommon

namespace UsdQtCommon

/-! ## Registry lemmas -/

namespace UsdQtUtilities

theorem lookup_register (reg : HookRegistry α β) (name m : String)
    (f : HookFunc α β) :
    (register reg name f).lookup m =
      if m = name then some (f :: ((reg.lookup m).getD []))
      else reg.lookup m := by
  induction reg with
  | nil =>
    by_cases h : m = name
    · simp [register, List.lookup, h]
    · simp [register, List.lookup, h, beq_eq_false_iff_ne.mpr h]
  | cons hd tl ih =>
    obtain ⟨n, fs⟩ := hd
    by_cases hn : n = name
    · subst hn
      by_cases hm : m = n
      · simp [register, List.lookup, hm]
      · simp [register, List.lookup, hm, beq_eq_false_iff_ne.mpr hm]
    · by_cases hm : m = n
      · subst hm
        simp [register, List.lookup, hn]
      · simp [register, List.lookup, hn, beq_eq_false_iff_ne.mpr hm, ih]

theorem lookup_registerMany (reg : HookRegistry α β)
    (pairs : List (String × HookFunc α β)) (name : String) :
    (registerMany reg pairs).lookup name =
      if (pairs.filter (fun p => p.1 = name)).isEmpty then reg.lookup name
      else some (((pairs.filter (fun p => p.1 = name)).map Prod.snd).reverse
                  ++ ((reg.lookup name).getD [])) := by
  induction pairs generalizing reg with
  | nil => simp [registerMany]
  | cons hd tl ih =>
    obtain ⟨n, f⟩ := hd
    simp only [registerMany]
    rw [ih, lookup_register]
    by_cases hn : n = name
    · subst hn
      by_cases he : (tl.filter (fun p => p.1 = n)).isEmpty
      · have he' : tl.filter (fun p => p.1 = n) = [] :=
          List.isEmpty_iff.mp he
        simp [he', List.filter_cons]
      · simp [he, List.filter_cons]
    · have hn' : ¬name = n := fun h => hn h.symm
      by_cases he : (tl.filter (fun p => p.1 = name)).isEmpty
      · simp [he, List.filter_cons, hn, hn']
      · simp [he, List.filter_cons, hn, hn']

theorem firstNonFallback_eq_none (fs : List (HookFunc α β)) (a : α)
    (h : ∀ f ∈ fs, f a = none) : firstNonFallback fs a = none := by
  induction fs with
  | nil => rfl
  | cons f fs ih =>
    simp only [firstNonFallback, h f (List.mem_cons_self f fs)]
    exact ih fun g hg => h g (List.mem_cons_of_mem f hg)

theorem filter_not_isEmpty_of_mem (pairs : List (String × HookFunc α β))
    (name : String) (h : name ∈ pairs.map Prod.fst) :
    (pairs.filter (fun p => p.1 = name)).isEmpty = false := by
  obtain ⟨p, hp, h1⟩ := List.mem_map.mp h
  simp only [List.isEmpty_eq_false, ne_eq, List.filter_eq_nil_iff]
  push_neg
  exact ⟨p, hp, by simp [h1]⟩

end UsdQtUtilities

/-! ## Menu-model lemmas -/

theorem MenuEntry.addToMenu_items (e : MenuEntry Ctx) (menu : QMenu Ctx)
    (ctx : Ctx) :
    e.AddToMenu menu ctx = ⟨menu.title, menu.items ++ e.itemsFor ctx⟩ := by
  cases e with
  | separator => rfl
  | action ma =>
    simp only [MenuEntry.AddToMenu, MenuEntry.itemsFor, MenuAction.AddToMenu]
    cases ma.Build ctx <;> simp

theorem foldl_addToMenu (ctx : Ctx) (es : List (MenuEntry Ctx))
    (menu : QMenu Ctx) :
    es.foldl (fun m e => e.AddToMenu m ctx) menu =
      ⟨menu.title, menu.items ++ (es.map (fun e => e.itemsFor ctx)).flatten⟩ := by
  induction es generalizing menu with
  | nil => simp
  | cons e es ih =>
    simp only [List.foldl_cons, List.map_cons, List.flatten_cons]
    rw [MenuEntry.addToMenu_items, ih]
    simp

theorem MenuBuilder.rawBuild_eq (mb : MenuBuilder Ctx) (ctx : Ctx) :
    mb.rawBuild ctx =
      ⟨mb.name, (mb.actions.map (fun e => e.itemsFor ctx)).flatten⟩ := by
  unfold MenuBuilder.rawBuild
  rw [foldl_addToMenu]
  simp

theorem MenuEntry.itemsFor_length_le_one (e : MenuEntry Ctx) (ctx : Ctx) :
    (e.itemsFor ctx).length ≤ 1 := by
  cases e with
  | separator => simp [MenuEntry.itemsFor]
  | action ma =>
    simp only [MenuEntry.itemsFor]
    cases ma.Build ctx <;> simp

theorem sepNews_some (i : Nat) (fs : List Nat) :
    sepNews ⟨some i⟩ fs = (⟨some i⟩, List.replicate fs.length i) := by
  induction fs with
  | nil => rfl
  | cons f fs ih => simp [sepNews, sepNew, ih, List.replicate_succ]

/-! ## Verified properties -/

/-- C2: the menu separator is a singleton.  Starting from the pristine class
state, any sequence of constructions returns the very first allocated
object every time (so later fresh ids are never consumed and exactly one
separator object ever exists), the class state remembers only that one
object, and calling the instance returns it unchanged. -/
theorem menuSeparator_singleton (f : Nat) (fs : List Nat) :
    (sepNews ⟨none⟩ (f :: fs)).2 = List.replicate (fs.length + 1) f ∧
    (sepNews ⟨none⟩ (f :: fs)).1 = ⟨some f⟩ ∧
    sepCall f = f := by
  refine ⟨?_, ?_, rfl⟩ <;>
    simp [sepNews, sepNew, sepNews_some, List.replicate_succ]

/-- C6: `BlendColors` blends each of the four RGBA channels as
`channel1 * mix + channel2 * (1 - mix)`; with mix `1` the result equals the
first color, and with the default mix `1/2` the blend is symmetric in its
two arguments. -/
theorem blendColors_channelwise (c1 c2 : QColorQ) (m : ℚ) :
    BlendColors c1 c2 m =
      ⟨c1.r * m + c2.r * (1 - m), c1.g * m + c2.g * (1 - m),
       c1.b * m + c2.b * (1 - m), c1.a * m + c2.a * (1 - m)⟩ ∧
    BlendColors c1 c2 1 = c1 ∧
    BlendColors c1 c2 (1/2) = BlendColors c2 c1 (1/2) := by
  refine ⟨rfl, ?_, ?_⟩
  · cases c1
    simp [BlendColors, QColorQ.getRgb, QColorQ.ofChannels]
  · cases c1
    cases c2
    simp only [BlendColors, QColorQ.getRgb, QColorQ.ofChannels,
      List.zip_cons_cons, List.zip_nil_right, List.map_cons, List.map_nil,
      QColorQ.mk.injEq]
    refine ⟨by ring, by ring, by ring, by ring⟩

/-- C7: the default layer-identity resolver `GetId` returns the layer's
`identifier` for every `Sdf.Layer` instance, and returns every other input
unchanged. -/
theorem getId_default_resolver (v : PyVal α) :
    (∀ ident : String,
      GetId (PyVal.sdfLayer ident : PyVal α) = PyVal.pyStr ident) ∧
    (v.isSdfLayer = false → GetId v = v) := by
  constructor
  · intro ident
    rfl
  · intro h
    cases v with
    | sdfLayer i => simp [PyVal.isSdfLayer] at h
    | pyStr s => rfl
    | other x => rfl

/-- C7 witness: concrete evaluations of the default resolver. -/
theorem getId_default_resolver_witness :
    GetId (PyVal.sdfLayer "shot.usda" : PyVal Nat) = PyVal.pyStr "shot.usda" ∧
    GetId (PyVal.other 7 : PyVal Nat) = PyVal.other 7 :=
  ⟨(getId_default_resolver (PyVal.other (7 : Nat))).1 "shot.usda",
   (getId_default_resolver (PyVal.other (7 : Nat))).2 rfl⟩

/-- C8: `MenuBuilder` construction stores the stripped name, fails exactly
when the stripped name is empty, and thus every constructed `MenuBuilder`
has a non-empty name and keeps its actions list. -/
theorem menuBuilder_init_strips_and_validates (name : String)
    (actions : List (MenuEntry Ctx)) :
    (MenuBuilder.init name actions = none ↔ pyStrip name = "") ∧
    (∀ mb : MenuBuilder Ctx, MenuBuilder.init name actions = some mb →
      mb.name = pyStrip name ∧ mb.name ≠ "" ∧ mb.actions = actions) := by
  by_cases h : pyStrip name = ""
  · constructor
    · simp [MenuBuilder.init, h]
    · intro mb hmb
      simp [MenuBuilder.init, h] at hmb
  · constructor
    · simp [MenuBuilder.init, h]
    · intro mb hmb
      simp only [MenuBuilder.init] at hmb
      rw [if_neg h] at hmb
      cases hmb
      exact ⟨rfl, h, rfl⟩

/-- C8 witness: a padded name is stripped and stored, and an all-whitespace
name is rejected. -/
theorem menuBuilder_init_strips_and_validates_witness :
    ("Edit" = pyStrip "  Edit  " ∧ "Edit" ≠ "" ∧
      ([] : List (MenuEntry Unit)) = []) ∧
    MenuBuilder.init "   " ([] : List (MenuEntry Unit)) = none :=
  ⟨(menuBuilder_init_strips_and_validates "  Edit  "
      ([] : List (MenuEntry Unit))).2 ⟨"Edit", []⟩ (by rfl),
   (menuBuilder_init_strips_and_validates "   "
      ([] : List (MenuEntry Unit))).1.mpr (by decide)⟩

/-- C1: after any sequence of registrations, `exec_` on a registered hook
name tries the functions most-recently-registered first (the reversed
registration order under that name); a function returning a value ends the
dispatch with that value, and a function raising `FallbackException`
(returning `none`) defers to the next-registered implementation. -/
theorem exec_tries_most_recently_registered_first
    (pairs : List (String × HookFunc α β)) (name : String) (a : α)
    (h : name ∈ pairs.map Prod.fst) :
    UsdQtUtilities.exec_ (UsdQtUtilities.registerMany [] pairs) name a =
      Except.ok (UsdQtUtilities.firstNonFallback
        (((pairs.filter (fun p => p.1 = name)).map Prod.snd).reverse) a) ∧
    (∀ (f : HookFunc α β) (fs : List (HookFunc α β)) (v : β), f a = some v →
      UsdQtUtilities.firstNonFallback (f :: fs) a = some v) ∧
    (∀ (f : HookFunc α β) (fs : List (HookFunc α β)), f a = none →
      UsdQtUtilities.firstNonFallback (f :: fs) a =
        UsdQtUtilities.firstNonFallback fs a) := by
  refine ⟨?_, ?_, ?_⟩
  · have hne := UsdQtUtilities.filter_not_isEmpty_of_mem pairs name h
    simp [UsdQtUtilities.exec_, UsdQtUtilities.lookup_registerMany, hne]
  · intro f fs v hf
    simp [UsdQtUtilities.firstNonFallback, hf]
  · intro f fs hf
    simp [UsdQtUtilities.firstNonFallback, hf]

/-- C1 witness: with a base implementation registered first and a
fallback-raising override registered second, dispatch starts at the
override and defers past it to the base implementation. -/
theorem exec_tries_most_recently_registered_first_witness :
    UsdQtUtilities.exec_ (UsdQtUtilities.registerMany []
        ([("GetId", fun n => some n), ("GetId", fun _ => none)] :
          List (String × HookFunc Nat Nat)))
      "GetId" 5 = Except.ok (some 5) := by
  have h := exec_tries_most_recently_registered_first
    ([("GetId", fun n => some n), ("GetId", fun _ => none)] :
      List (String × HookFunc Nat Nat)) "GetId" 5 (by simp)
  rw [h.1]
  rfl

/-- C10: `exec_` raises `KeyError` when the hook name was never registered,
and returns `None` when every function registered under the name raises
`FallbackException`. -/
theorem exec_keyerror_or_exhausted_none
    (pairs : List (String × HookFunc α β)) (name : String) (a : α) :
    (name ∉ pairs.map Prod.fst →
      UsdQtUtilities.exec_ (UsdQtUtilities.registerMany [] pairs) name a =
        Except.error (PyError.keyError name)) ∧
    (name ∈ pairs.map Prod.fst →
      (∀ p ∈ pairs, p.1 = name → p.2 a = none) →
      UsdQtUtilities.exec_ (UsdQtUtilities.registerMany [] pairs) name a =
        Except.ok none) := by
  constructor
  · intro h
    have hemp : (pairs.filter (fun p => p.1 = name)).isEmpty = true := by
      simp only [List.isEmpty_eq_true, List.filter_eq_nil_iff,
        decide_eq_true_eq]
      intro p hp hpe
      exact h (List.mem_map.mpr ⟨p, hp, hpe⟩)
    simp [UsdQtUtilities.exec_, UsdQtUtilities.lookup_registerMany, hemp]
  · intro hmem hall
    have hne := UsdQtUtilities.filter_not_isEmpty_of_mem pairs name hmem
    have hnone : UsdQtUtilities.firstNonFallback
        (((pairs.filter (fun p => p.1 = name)).map Prod.snd).reverse) a =
          none := by
      apply UsdQtUtilities.firstNonFallback_eq_none
      intro f hf
      rw [List.mem_reverse] at hf
      obtain ⟨p, hp, rfl⟩ := List.mem_map.mp hf
      have hpf := List.mem_filter.mp hp
      exact hall p hpf.1 (by simpa using hpf.2)
    simp [UsdQtUtilities.exec_, UsdQtUtilities.lookup_registerMany, hne,
      hnone]

/-- C10 witness: an unregistered name raises `KeyError`, and a name whose
only registered function always raises `FallbackException` yields `None`. -/
theorem exec_keyerror_or_exhausted_none_witness :
    UsdQtUtilities.exec_ (UsdQtUtilities.registerMany []
        ([("GetId", fun _ => none)] : List (String × HookFunc Nat Nat)))
      "GetReferencePath" 0 =
        Except.error (PyError.keyError "GetReferencePath") ∧
    UsdQtUtilities.exec_ (UsdQtUtilities.registerMany []
        ([("GetId", fun _ => none)] : List (String × HookFunc Nat Nat)))
      "GetId" 0 = Except.ok none := by
  constructor
  · exact (exec_keyerror_or_exhausted_none
      ([("GetId", fun _ => none)] : List (String × HookFunc Nat Nat))
      "GetReferencePath" 0).1 (by simp)
  · exact (exec_keyerror_or_exhausted_none
      ([("GetId", fun _ => none)] : List (String × HookFunc Nat Nat))
      "GetId" 0).2 (by simp) (by simp)

/-- C3: a successfully built menu carries the builder's name and its items
are exactly the concatenation, in actions-list order, of what each action
contributes, each action contributing at most one item — so menu items
appear in the same order as the actions that produced them. -/
theorem menuBuilder_build_in_action_order (mb : MenuBuilder Ctx) (ctx : Ctx)
    (menu : QMenu Ctx) (h : mb.Build ctx = some menu) :
    menu.title = mb.name ∧
    menu.items = (mb.actions.map (fun e => e.itemsFor ctx)).flatten ∧
    ∀ e ∈ mb.actions, (e.itemsFor ctx).length ≤ 1 := by
  have hb : menu = mb.rawBuild ctx := by
    simp only [MenuBuilder.Build] at h
    split at h
    · cases h
    · exact (Option.some.inj h).symm
  subst hb
  rw [MenuBuilder.rawBuild_eq]
  exact ⟨rfl, rfl, fun e _ => MenuEntry.itemsFor_length_le_one e ctx⟩

/-- C3 witness: the built demo menu keeps the builder name and lists the
contributed items in actions order. -/
theorem menuBuilder_build_in_action_order_witness :
    demoMenu.title = demoBuilder.name ∧
    demoMenu.items =
      (demoBuilder.actions.map (fun e => e.itemsFor ())).flatten := by
  have h := menuBuilder_build_in_action_order demoBuilder () demoMenu (by rfl)
  exact ⟨h.1, h.2.1⟩

/-- C9 counterexample: with a separator-only actions list the separator
does add an item to the built menu, yet `Build` returns `None` because
Qt's `isEmpty()` skips separators — so `Build` does not return `None`
exactly when no action added an item; `AddMenu` accordingly returns
`False` and registers nothing. -/
theorem menuBuilder_build_none_despite_item :
    sepOnlyBuilder.Build () = none ∧
    (sepOnlyBuilder.rawBuild ()).items =
      [⟨⟨"", true, true⟩, some QData.separator⟩] ∧
    emptyBar.AddMenu () sepOnlyBuilder = (emptyBar, Except.ok false) :=
  ⟨rfl, rfl, rfl⟩

/-- C9 (amended): `Build` returns `None` exactly when every item the
actions contributed is a separator — Qt's `isEmpty()` ignores separators —
and in particular whenever the actions list is empty; under an unused
name, `AddMenu` leaves the registry unchanged and returns `False` when
`Build` returns `None`, and returns `True` when `Build` returns a menu. -/
theorem menuBuilder_build_none_iff_empty (mb : MenuBuilder Ctx) (ctx : Ctx) :
    (mb.Build ctx = none ↔
      ∀ e ∈ mb.actions, ∀ a ∈ e.itemsFor ctx, a.props.separator = true) ∧
    (mb.actions = [] → mb.Build ctx = none) ∧
    (∀ b : MenuBarBuilder Ctx, b.menus.lookup mb.name = none →
      mb.Build ctx = none → b.AddMenu ctx mb = (b, Except.ok false)) ∧
    (∀ (b : MenuBarBuilder Ctx) (menu : QMenu Ctx),
      b.menus.lookup mb.name = none → mb.Build ctx = some menu →
      (b.AddMenu ctx mb).2 = Except.ok true) := by
  have hB : mb.Build ctx = none ↔ (mb.rawBuild ctx).isEmpty = true := by
    simp only [MenuBuilder.Build]
    by_cases he : (mb.rawBuild ctx).isEmpty = true
    · simp [he]
    · simp [he]
  have hiff : mb.Build ctx = none ↔
      ∀ e ∈ mb.actions, ∀ a ∈ e.itemsFor ctx, a.props.separator = true := by
    rw [hB]
    simp only [QMenu.isEmpty, MenuBuilder.rawBuild_eq, List.all_eq_true]
    constructor
    · intro h e he a ha
      exact h a (List.mem_flatten.mpr
        ⟨e.itemsFor ctx, List.mem_map.mpr ⟨e, he, rfl⟩, ha⟩)
    · intro h a ha
      obtain ⟨l, hl, hal⟩ := List.mem_flatten.mp ha
      obtain ⟨e, he, rfl⟩ := List.mem_map.mp hl
      exact h e he a hal
  refine ⟨hiff, ?_, ?_, ?_⟩
  · intro h
    exact hiff.mpr (by simp [h])
  · intro b hb hnone
    simp [MenuBarBuilder.AddMenu, hb, hnone]
  · intro b menu hb hsome
    simp [MenuBarBuilder.AddMenu, hb, hsome]

/-- C9 witness: a builder whose single action contributes nothing builds
`None` and `AddMenu` returns `False` leaving the empty bar unchanged, while
a builder with a real action is added with result `True`. -/
theorem menuBuilder_build_none_iff_empty_witness :
    hiddenBuilder.Build () = none ∧
    emptyBar.AddMenu () hiddenBuilder = (emptyBar, Except.ok false) ∧
    (emptyBar.AddMenu () fileBuilder).2 = Except.ok true := by
  have h1 := menuBuilder_build_none_iff_empty hiddenBuilder ()
  have h2 := menuBuilder_build_none_iff_empty fileBuilder ()
  have hb : hiddenBuilder.Build () = none := by
    apply h1.1.mpr
    intro e he a ha
    simp only [hiddenBuilder, List.mem_singleton] at he
    subst he
    simp [MenuEntry.itemsFor, MenuAction.Build, hiddenAction] at ha
  refine ⟨hb, h1.2.2.1 emptyBar rfl hb, ?_⟩
  exact h2.2.2.2 emptyBar fileMenu rfl (by rfl)

/-- C4: `AddMenu` raises `ValueError` exactly when the builder's name is
already registered, in which case the whole registry state is unchanged;
and `AddMenu` preserves distinctness of the registered names, so each name
maps to at most one menu. -/
theorem menuBarBuilder_addMenu_unique_names (b : MenuBarBuilder Ctx)
    (ctx : Ctx) (mb : MenuBuilder Ctx) :
    ((b.AddMenu ctx mb).2 = Except.error (PyError.valueError
        ("A menu named " ++ mb.name ++ " already exists")) ↔
      (b.menus.lookup mb.name).isSome = true) ∧
    ((b.menus.lookup mb.name).isSome = true →
      b.AddMenu ctx mb = (b, Except.error (PyError.valueError
        ("A menu named " ++ mb.name ++ " already exists")))) ∧
    ((b.menus.map Prod.fst).Nodup →
      (((b.AddMenu ctx mb).1).menus.map Prod.fst).Nodup) := by
  by_cases hs : (b.menus.lookup mb.name).isSome = true
  · refine ⟨⟨fun _ => hs, fun _ => ?_⟩, fun _ => ?_, fun hnd => ?_⟩
    · simp [MenuBarBuilder.AddMenu, hs]
    · simp [MenuBarBuilder.AddMenu, hs]
    · simpa [MenuBarBuilder.AddMenu, hs] using hnd
  · have hn : mb.name ∉ b.menus.map Prod.fst := by
      have hlk : b.menus.lookup mb.name = none := by
        cases hl : b.menus.lookup mb.name with
        | none => rfl
        | some v => exact absurd (by simp [hl]) hs
      rw [List.lookup_eq_none_iff] at hlk
      intro hmem
      obtain ⟨p, hp, hfst⟩ := List.mem_map.mp hmem
      have := hlk p hp
      simp [hfst] at this
    refine ⟨?_, fun hss => absurd hss hs, fun hnd => ?_⟩
    · constructor
      · intro herr
        exfalso
        cases hbd : mb.Build ctx <;>
          simp [MenuBarBuilder.AddMenu, hs, hbd] at herr
      · intro hss
        exact absurd hss hs
    · cases hbd : mb.Build ctx with
      | none => simpa [MenuBarBuilder.AddMenu, hs, hbd] using hnd
      | some menu =>
        simp [MenuBarBuilder.AddMenu, hs, hbd, List.nodup_append, hnd,
          List.disjoint_singleton, hn]

/-- C4 witness: adding a second menu named File raises `ValueError` and
leaves the registry untouched, whose registered names stay distinct. -/
theorem menuBarBuilder_addMenu_unique_names_witness :
    barWithFile.AddMenu () fileBuilder = (barWithFile,
      Except.error (PyError.valueError "A menu named File already exists")) ∧
    (((barWithFile.AddMenu () fileBuilder).1).menus.map Prod.fst).Nodup := by
  have h := menuBarBuilder_addMenu_unique_names barWithFile () fileBuilder
  exact ⟨h.2.1 rfl, h.2.2 (by simp [barWithFile])⟩

/-- C5: on the about-to-show signal for a registered menu, the dispatcher
returns that menu with every action updated against the one fresh context:
an action whose data is a `MenuAction` gets that instance's `Update`, the
default `Update` sets only the enabled state to `enable(context)`, and
actions without `MenuAction` data are untouched. -/
theorem menuAboutToShow_updates_menuActions (b : MenuBarBuilder Ctx)
    (ctx : Ctx) (n : String) (menu : QMenu Ctx)
    (h : b.menus.lookup n = some menu) :
    b.menuAboutToShow ctx n =
      Except.ok ⟨menu.title, menu.items.map (updateQAction ctx)⟩ ∧
    (∀ (a : QAction Ctx) (ma : MenuAction Ctx),
      a.data = some (QData.menuAction ma) →
      updateQAction ctx a = ⟨ma.Update a.props ctx, a.data⟩) ∧
    (∀ (ma : MenuAction Ctx) (p : QActionProps), ma.updateOverride = none →
      ma.Update p ctx = ⟨p.text, ma.enable ctx, p.separator⟩) ∧
    (∀ a : QAction Ctx, a.data = none → updateQAction ctx a = a) ∧
    (∀ a : QAction Ctx, a.data = some QData.separator →
      updateQAction ctx a = a) := by
  refine ⟨?_, ?_, ?_, ?_, ?_⟩
  · simp [MenuBarBuilder.menuAboutToShow, h]
  · intro a ma hma
    simp [updateQAction, hma]
  · intro ma p hov
    simp [MenuAction.Update, hov]
  · intro a ha
    simp [updateQAction, ha]
  · intro a ha
    simp [updateQAction, ha]

/-- C5 witness: showing the Tools menu re-enables the stale Paste action
through its `MenuAction` data's default `Update`. -/
theorem menuAboutToShow_updates_menuActions_witness :
    barWithStale.menuAboutToShow () "Tools" = Except.ok
      ⟨"Tools", [⟨⟨"Paste", true, false⟩, some (.menuAction pasteAction)⟩]⟩ := by
  have h := menuAboutToShow_updates_menuActions barWithStale () "Tools"
    staleMenu rfl
  rw [h.1]
  rfl

end UsdQtCommon
